import Mathlib

/-!
Verification of the webcam heart-rate monitor's signal-processing pipeline.

The pipeline lives in the main application component: per-frame quality
gating (coverage and motion checks), a sliding sample window, detrending,
IIR low-pass filtering, a direct DFT magnitude spectrum with Hanning
window, a band-limited peak search, an exponentially smoothed heart-rate
estimate, and an adaptive display range.  JavaScript numbers are embedded
as real numbers; JavaScript out-of-range array reads (which yield
`undefined`, and make every comparison false) are embedded as `Option`
lookups.
-/

namespace HeartRate

noncomputable section

open Real

/-! ### Configuration constants -/

def FPS : ℕ := 30

def WINDOW_SECONDS : ℕ := 20

def BUFFER_SIZE : ℕ := FPS * WINDOW_SECONDS

def MIN_BPM : ℝ := 45

def MAX_BPM : ℝ := 200

def LOW_PASS_ALPHA : ℝ := 0.5

def MOTION_THRESHOLD : ℝ := 4.0

def COVERAGE_STD_DEV_THRESHOLD : ℝ := 16.0

/-! ### Signal-processing helpers -/

/-- Local moving-average at index `i`: the source computes
`start = max(0, i - floor(FPS/2))`, `end = min(length-1, i + floor(FPS/2))`,
slices `signal.slice(start, end+1)` and averages it.  Natural-number
subtraction `i - FPS / 2` is exactly `max 0 (i - 15)`. -/
def movingAverageAt (signal : List ℝ) (i : ℕ) : ℝ :=
  let start := i - FPS / 2
  let stop := min (signal.length - 1) (i + FPS / 2)
  let subSignal := (signal.drop start).take (stop + 1 - start)
  subSignal.sum / subSignal.length

/-- Detrends a signal by subtracting a moving average (source `detrendSignal`):
signals of length `< 3` are returned unchanged; otherwise each sample has the
clipped-window local mean subtracted. -/
def detrendSignal (signal : List ℝ) : List ℝ :=
  if signal.length < 3 then signal
  else
    let movingAverage := (List.range signal.length).map (movingAverageAt signal)
    List.zipWith (fun val avg => val - avg) signal movingAverage

/-- The loop of the source `lowPassFilter`: `prev` is the previously emitted
output sample; each step emits `alpha * x + (1 - alpha) * prev`. -/
def lowPassAux (alpha : ℝ) : ℝ → List ℝ → List ℝ
  | _, [] => []
  | prev, v :: rest =>
      let y := alpha * v + (1 - alpha) * prev
      y :: lowPassAux alpha y rest

/-- Simple IIR low-pass filter (source `lowPassFilter`): empty input gives
empty output, otherwise `y[0] = x[0]` and `y[i] = α·x[i] + (1-α)·y[i-1]`. -/
def lowPassFilter (signal : List ℝ) (alpha : ℝ) : List ℝ :=
  match signal with
  | [] => []
  | x :: xs => x :: lowPassAux alpha x xs

/-- Hanning-windowed signal (source: `signal.map((val, i) => val * (0.5 *
(1 - Math.cos((2 * Math.PI * i) / (N - 1)))))`). -/
def hanningWindowed (signal : List ℝ) : List ℝ :=
  let N := signal.length
  signal.enum.map fun p =>
    p.2 * (0.5 * (1 - Real.cos ((2 * Real.pi * p.1) / ((N : ℝ) - 1))))

/-- Real part of DFT bin `k` of the windowed signal `w` of nominal length
`N` (source: `real += windowedSignal[n] * Math.cos(angle)` with
`angle = 2πkn/N`). -/
def dftReal (w : List ℝ) (N k : ℕ) : ℝ :=
  ∑ n ∈ Finset.range w.length,
    w.getD n 0 * Real.cos ((2 * Real.pi * k * n) / (N : ℝ))

/-- Negated imaginary accumulator of DFT bin `k` (source:
`imag -= windowedSignal[n] * Math.sin(angle)`). -/
def dftImag (w : List ℝ) (N k : ℕ) : ℝ :=
  ∑ n ∈ Finset.range w.length,
    -(w.getD n 0 * Real.sin ((2 * Real.pi * k * n) / (N : ℝ)))

/-- Magnitude spectrum by direct DFT (source `calculateMagnitudes`).  The
source allocates `Math.floor(N / 2)` zero slots, but its loop
`for (let k = 0; k < N / 2; k++)` runs for every integer `k < N / 2`, i.e.
for `⌈N/2⌉` values of `k`; for odd `N` the final assignment extends the
JavaScript array by one slot.  Every allocated slot is overwritten, so the
result is exactly the list of `⌈N/2⌉` computed magnitudes
(`⌈N/2⌉ = (N + 1) / 2` in natural division). -/
def calculateMagnitudes (signal : List ℝ) : List ℝ :=
  let N := signal.length
  let w := hanningWindowed signal
  (List.range ((N + 1) / 2)).map fun k =>
    Real.sqrt (dftReal w N k * dftReal w N k + dftImag w N k * dftImag w N k)
      / (N : ℝ)

/-! ### Application state -/

/-- Status messages shown by the app, as an enumeration of the exact string
states the source assigns (`Calibrating` carries the rounded percentage). -/
inductive Status where
  | ready : Status
  | initializing : Status
  | calibrating : ℤ → Status
  | processing : Status
  | needsCoverage : Status
  | motionDetected : Status
deriving DecidableEq

/-- The chart's vertical range: the source stores either the sentinel tuple
`['auto', 'auto']` or a numeric `[min, max]` pair. -/
inductive YDomain where
  | auto : YDomain
  | bounded : ℝ → ℝ → YDomain

/-- The mutable state of the monitoring session: React state plus refs. -/
structure AppState where
  isMonitoring : Bool
  heartRate : ℝ
  chartData : List (ℕ × ℝ)
  status : Status
  yDomain : YDomain
  dataBuffer : List ℝ
  lastRedAverage : Option ℝ

/-- Initial component state. -/
def initialState : AppState :=
  { isMonitoring := false
    heartRate := 0
    chartData := []
    status := .ready
    yDomain := .auto
    dataBuffer := []
    lastRedAverage := none }

/-! ### Peak search -/

/-- JavaScript array read `magnitudes[i]` for a possibly out-of-range or
negative index: `undefined` outside `[0, length)`, modelled as `none`. -/
def jsGet (mags : List ℝ) (i : ℤ) : Option ℝ :=
  if i < 0 then none else mags.get? i.toNat

/-- The peak-search loop body, folded over the list of candidate indices.
The accumulator is `(peakIndex, maxMagnitude)`; a `none` read (JavaScript
`undefined`) makes the `>` comparison false, leaving the accumulator. -/
def peakScan (mags : List ℝ) : List ℤ → ℤ × ℝ → ℤ × ℝ
  | [], acc => acc
  | i :: rest, acc =>
      match jsGet mags i with
      | some v => if v > acc.2 then peakScan mags rest (i, v)
                  else peakScan mags rest acc
      | none => peakScan mags rest acc

/-- Integer loop range `minIndex, minIndex+1, ..., maxIndex` (empty when
`maxIndex < minIndex`), mirroring `for (let i = minIndex; i <= maxIndex; i++)`. -/
def idxRange (lo hi : ℤ) : List ℤ :=
  (List.range (hi + 1 - lo).toNat).map fun j : ℕ => lo + (j : ℤ)

/-- Lower edge of the searched BPM band (source: `Math.floor((minFreq *
samples) / sampleRate)` with `minFreq = MIN_BPM / 60`). -/
def minIndexOf (samples : ℕ) : ℤ :=
  ⌊MIN_BPM / 60 * (samples : ℝ) / (FPS : ℝ)⌋

/-- Upper edge of the searched BPM band (source: `Math.ceil((maxFreq *
samples) / sampleRate)`). -/
def maxIndexOf (samples : ℕ) : ℤ :=
  ⌈MAX_BPM / 60 * (samples : ℝ) / (FPS : ℝ)⌉

/-- Result `(peakIndex, maxMagnitude)` of the band-limited scan, starting
from the source's initial values `peakIndex = -1`, `maxMagnitude = -1`. -/
def findPeak (mags : List ℝ) (samples : ℕ) : ℤ × ℝ :=
  peakScan mags (idxRange (minIndexOf samples) (maxIndexOf samples)) (-1, -1)

/-! ### The per-frame pass -/

/-- Push the accepted sample and FIFO-evict the oldest once past capacity
(source: `dataBuffer.current.push(redAverage)` then `if (length >
BUFFER_SIZE) shift()`). -/
def acceptBuffer (buf : List ℝ) (redAverage : ℝ) : List ℝ :=
  let pushed := buf ++ [redAverage]
  if BUFFER_SIZE < pushed.length then pushed.tail else pushed

/-- Minimum of a signal, as `Math.min(...filtered)`; the source only applies
it to the non-empty full window (for `[]` JavaScript would give `Infinity`,
which has no embedding and is unreachable here). -/
def signalMinOf : List ℝ → ℝ
  | [] => 0
  | x :: xs => xs.foldl min x

/-- Maximum of a signal, as `Math.max(...filtered)` (non-empty in use). -/
def signalMaxOf : List ℝ → ℝ
  | [] => 0
  | x :: xs => xs.foldl max x

/-- Padding for the display range (source: `(signalMax - signalMin) * 0.1
|| 1`, i.e. the fixed default `1` when the computed padding is zero). -/
def paddingOf (signalMin signalMax : ℝ) : ℝ :=
  if (signalMax - signalMin) * 0.1 = 0 then 1 else (signalMax - signalMin) * 0.1

/-- One full-pipeline cycle over the full buffer `buf` (the `else` branch of
the calibration check): detrend, low-pass, DFT, band-limited peak search,
heart-rate smoothing, chart data, display range. -/
def processFullWindow (s : AppState) (buf : List ℝ) : AppState :=
  let detrended := detrendSignal buf
  let filtered := lowPassFilter detrended LOW_PASS_ALPHA
  let magnitudes := calculateMagnitudes filtered
  let samples := filtered.length
  let peak := findPeak magnitudes samples
  let newRate :=
    if peak.1 ≠ -1 then
      s.heartRate * 0.9 + ((peak.1 : ℝ) * (FPS : ℝ) / (samples : ℝ) * 60) * 0.1
    else s.heartRate
  let signalMin := signalMinOf filtered
  let signalMax := signalMaxOf filtered
  let signalPadding := paddingOf signalMin signalMax
  let newDomain :=
    match s.yDomain with
    | .auto => YDomain.bounded (signalMin - signalPadding) (signalMax + signalPadding)
    | .bounded lo hi =>
        YDomain.bounded (lo * 0.98 + (signalMin - signalPadding) * 0.02)
          (hi * 0.98 + (signalMax + signalPadding) * 0.02)
  { s with
      status := .processing
      heartRate := newRate
      chartData := filtered.enum
      yDomain := newDomain }

/-- The part of the frame pass after the quality gate has accepted the
sample: record it as the previous average, append it to the window, and
either report calibration progress or run the full pipeline. -/
def acceptFrame (redAverage : ℝ) (s : AppState) : AppState :=
  let buf := acceptBuffer s.dataBuffer redAverage
  let s' := { s with lastRedAverage := some redAverage, dataBuffer := buf }
  if buf.length < BUFFER_SIZE then
    { s' with
        status := .calibrating
          (round ((buf.length : ℝ) / (BUFFER_SIZE : ℝ) * 100)) }
  else
    processFullWindow s' buf

/-- One frame pass of `processFrame`, given the extracted per-frame
statistics `(redAverage, redStdDev)`: coverage check, motion check, then
the accepted-sample path. -/
def processFrame (redAverage redStdDev : ℝ) (s : AppState) : AppState :=
  if redStdDev > COVERAGE_STD_DEV_THRESHOLD then
    if 0 < s.dataBuffer.length then
      { s with
          status := .needsCoverage
          dataBuffer := []
          heartRate := 0
          chartData := []
          yDomain := .auto }
    else { s with status := .needsCoverage }
  else
    match s.lastRedAverage with
    | some prev =>
        if |redAverage - prev| > MOTION_THRESHOLD then
          { s with
              status := .motionDetected
              dataBuffer := []
              heartRate := 0
              chartData := []
              yDomain := .auto
              lastRedAverage := some redAverage }
        else acceptFrame redAverage s
    | none => acceptFrame redAverage s

/-- The state changes of `startMonitoring`'s successful path (camera
acquisition itself is platform I/O): no-op while already monitoring,
otherwise clear the previous-average memory and begin. -/
def startMonitoring (s : AppState) : AppState :=
  if s.isMonitoring then s
  else { s with status := .initializing, lastRedAverage := none, isMonitoring := true }

/-- The state changes of `stopMonitoring`: no-op when not monitoring,
otherwise reset every piece of session state. -/
def stopMonitoring (s : AppState) : AppState :=
  if s.isMonitoring then
    { isMonitoring := false
      heartRate := 0
      chartData := []
      status := .ready
      yDomain := .auto
      dataBuffer := []
      lastRedAverage := none }
  else s

/-! ### The session as a transition system -/

/-- One externally triggered event: a captured frame (with its extracted
statistics), a start request, or a stop request. -/
inductive Event where
  | frame : ℝ → ℝ → Event
  | start : Event
  | stop : Event

/-- The transition function of the session. -/
def step : Event → AppState → AppState
  | .frame avg std, s => processFrame avg std s
  | .start, s => startMonitoring s
  | .stop, s => stopMonitoring s

/-- States reachable from the initial state by any event sequence. -/
inductive Reachable : AppState → Prop where
  | init : Reachable initialState
  | next : ∀ (e : Event) (s : AppState), Reachable s → Reachable (step e s)

/-- The calibration invariant: while the sample window is not yet full, the
heart-rate estimate is zero, no chart data is plotted, and the display range
is still the auto sentinel. -/
def StateInv (s : AppState) : Prop :=
  s.dataBuffer.length < BUFFER_SIZE →
    s.heartRate = 0 ∧ s.chartData = [] ∧ s.yDomain = YDomain.auto

/-! ### Statements taken from the specification's wording

These definitions follow the sentences of the specification, to be compared
with the definitions translated from the source. -/

/-- Modelled from the spec's wording of the Detrender: the arithmetic mean
of the input over the clipped sub-window
`[max(0, i - ⌊fps/2⌋), min(N - 1, i + ⌊fps/2⌋)]`, written with an interval
of indices (natural subtraction `i - FPS / 2` is `max 0 (i - 15)`). -/
def specLocalMean (signal : List ℝ) (i : ℕ) : ℝ :=
  let window := Finset.Icc (i - FPS / 2) (min (signal.length - 1) (i + FPS / 2))
  (∑ j ∈ window, signal.getD j 0) / (window.card : ℝ)

/-- Modelled from the spec's wording of the Spectral Estimator: bin `k` of
the magnitude spectrum,
`sqrt(real^2 + imag^2) / N` with `real = Σ_n x'[n]·cos(2πkn/N)`,
`imag = -Σ_n x'[n]·sin(2πkn/N)` and Hanning-windowed input
`x'[n] = x[n]·0.5·(1 - cos(2π·n/(N-1)))`. -/
def specMagnitudeAt (signal : List ℝ) (k : ℕ) : ℝ :=
  let N := signal.length
  let x' := fun n : ℕ =>
    signal.getD n 0 * (0.5 * (1 - Real.cos (2 * Real.pi * n / ((N : ℝ) - 1))))
  let re := ∑ n ∈ Finset.range N, x' n * Real.cos (2 * Real.pi * k * n / (N : ℝ))
  let im := -∑ n ∈ Finset.range N, x' n * Real.sin (2 * Real.pi * k * n / (N : ℝ))
  Real.sqrt (re ^ 2 + im ^ 2) / (N : ℝ)

/-! ### Concrete scenario states -/

/-- One flat frame: constant `redAverage = 100` with `redStdDev = 2`. -/
def flatStep : AppState → AppState := processFrame 100 2

/-- The state after `n` flat frames from the initial state. -/
def runFlat (n : ℕ) : AppState := flatStep^[n] initialState

/-- Closed form of the state after `n ≤ 599` flat frames. -/
def flatState : ℕ → AppState
  | 0 => initialState
  | n + 1 =>
      { initialState with
          status := .calibrating (round (((n + 1 : ℕ) : ℝ) / (BUFFER_SIZE : ℝ) * 100))
          dataBuffer := List.replicate (n + 1) 100
          lastRedAverage := some 100 }

/-- A calibrated steady state: a full window of constant samples. -/
def flatFull : AppState :=
  { initialState with
      dataBuffer := List.replicate BUFFER_SIZE 100
      lastRedAverage := some 100 }

/-! ### Helper lemmas -/

theorem list_sum_getD (l : List ℝ) :
    l.sum = ∑ i ∈ Finset.range l.length, l.getD i 0 := by
  induction l with
  | nil => simp
  | cons x xs ih =>
      simp only [List.sum_cons, List.length_cons, Finset.sum_range_succ', ih]
      simp [List.getD, add_comm]

theorem movingAverageAt_eq_specLocalMean (signal : List ℝ) (i : ℕ)
    (hi : i < signal.length) :
    movingAverageAt signal i = specLocalMean signal i := by
  have hlen1 : 1 ≤ signal.length := Nat.one_le_of_lt (Nat.lt_of_le_of_lt (Nat.zero_le i) hi)
  unfold movingAverageAt specLocalMean
  simp only []
  set lo := i - FPS / 2 with hlo
  set hi' := min (signal.length - 1) (i + FPS / 2) with hhi
  have hloi : lo ≤ i := Nat.sub_le _ _
  have hihi : i ≤ hi' :=
    le_min (Nat.le_pred_of_lt hi) (Nat.le_add_right _ _)
  have hup : hi' + 1 ≤ signal.length := by
    have : hi' ≤ signal.length - 1 := min_le_left _ _
    omega
  have hsublen :
      ((signal.drop lo).take (hi' + 1 - lo)).length = hi' + 1 - lo := by
    simp only [List.length_take, List.length_drop]
    omega
  have hsum :
      ((signal.drop lo).take (hi' + 1 - lo)).sum =
        ∑ j ∈ Finset.range (hi' + 1 - lo), signal.getD (lo + j) 0 := by
    rw [list_sum_getD, hsublen]
    refine Finset.sum_congr rfl fun j hj => ?_
    rw [Finset.mem_range] at hj
    have hj' : j < ((signal.drop lo).take (hi' + 1 - lo)).length := by omega
    have hoj : lo + j < signal.length := by omega
    rw [List.getD_eq_getElem _ _ hj', List.getD_eq_getElem _ _ hoj,
      List.getElem_take, List.getElem_drop]
  have hIcc :
      ∑ j ∈ Finset.Icc lo hi', signal.getD j 0 =
        ∑ j ∈ Finset.range (hi' + 1 - lo), signal.getD (lo + j) 0 := by
    rw [← Nat.Ico_succ_right, Finset.sum_Ico_eq_sum_range]
  rw [hsum, hsublen, hIcc, Nat.card_Icc]

theorem lowPassAux_const (alpha c : ℝ) (m : ℕ) :
    lowPassAux alpha c (List.replicate m c) = List.replicate m c := by
  induction m with
  | zero => simp [lowPassAux]
  | succ k ih =>
      have hc : alpha * c + (1 - alpha) * c = c := by ring
      simp [List.replicate_succ, lowPassAux, hc, ih]

theorem lowPassFilter_replicate (alpha c : ℝ) (n : ℕ) :
    lowPassFilter (List.replicate n c) alpha = List.replicate n c := by
  cases n with
  | zero => simp [lowPassFilter]
  | succ k => simp [List.replicate_succ, lowPassFilter, lowPassAux_const]

theorem movingAverageAt_replicate (n : ℕ) (c : ℝ) (i : ℕ) (hi : i < n) :
    movingAverageAt (List.replicate n c) i = c := by
  unfold movingAverageAt
  simp only [List.length_replicate, List.drop_replicate, List.take_replicate]
  set lo := i - FPS / 2 with hlo
  set hi' := min (n - 1) (i + FPS / 2) with hhi
  have hloi : lo ≤ i := Nat.sub_le _ _
  have hihi : i ≤ hi' := le_min (Nat.le_pred_of_lt hi) (Nat.le_add_right _ _)
  have hup : hi' + 1 ≤ n := by
    have : hi' ≤ n - 1 := min_le_left _ _
    omega
  have hmin : min (hi' + 1 - lo) (n - lo) = hi' + 1 - lo := by omega
  have hpos : (0 : ℕ) < hi' + 1 - lo := by omega
  have hne : ((hi' + 1 - lo : ℕ) : ℝ) ≠ 0 := Nat.cast_ne_zero.mpr (by omega)
  rw [hmin, List.sum_replicate, nsmul_eq_mul, mul_div_cancel_left₀ _ hne]

theorem detrendSignal_replicate (n : ℕ) (c : ℝ) (h3 : 3 ≤ n) :
    detrendSignal (List.replicate n c) = List.replicate n 0 := by
  unfold detrendSignal
  rw [if_neg (by simp; omega)]
  have hmap :
      (List.range (List.replicate n c).length).map
          (movingAverageAt (List.replicate n c)) =
        List.replicate n c := by
    rw [List.length_replicate]
    have : ∀ i ∈ List.range n, movingAverageAt (List.replicate n c) i = c := by
      intro i hi
      exact movingAverageAt_replicate n c i (List.mem_range.mp hi)
    rw [List.map_congr_left this]
    simp [List.map_const]
  rw [hmap]
  apply List.ext_getElem
  · simp
  · intro i h1 h2
    simp

theorem hanningWindowed_length (signal : List ℝ) :
    (hanningWindowed signal).length = signal.length := by
  simp [hanningWindowed]

theorem hanningWindowed_replicate_zero (n : ℕ) :
    hanningWindowed (List.replicate n (0 : ℝ)) = List.replicate n 0 := by
  apply List.ext_getElem
  · simp [hanningWindowed]
  · intro i h1 h2
    simp [hanningWindowed, List.getElem_enum]

theorem getD_replicate_zero (n j : ℕ) :
    (List.replicate n (0 : ℝ)).getD j 0 = 0 := by
  rcases Nat.lt_or_ge j n with h | h
  · rw [List.getD_eq_getElem _ _ (by simpa using h)]
    simp
  · rw [List.getD_eq_default _ _ (by simpa using h)]

theorem dftReal_replicate_zero (n N k : ℕ) :
    dftReal (List.replicate n (0 : ℝ)) N k = 0 := by
  unfold dftReal
  refine Finset.sum_eq_zero fun j _ => ?_
  rw [getD_replicate_zero]
  ring

theorem dftImag_replicate_zero (n N k : ℕ) :
    dftImag (List.replicate n (0 : ℝ)) N k = 0 := by
  unfold dftImag
  refine Finset.sum_eq_zero fun j _ => ?_
  rw [getD_replicate_zero]
  ring

theorem calculateMagnitudes_replicate_zero (n : ℕ) :
    calculateMagnitudes (List.replicate n (0 : ℝ)) =
      List.replicate ((n + 1) / 2) 0 := by
  unfold calculateMagnitudes
  simp only [List.length_replicate, hanningWindowed_replicate_zero,
    dftReal_replicate_zero, dftImag_replicate_zero]
  apply List.ext_getElem
  · simp
  · intro i h1 h2
    simp

/-! ### Peak-scan lemmas -/

theorem idxRange_cons (lo hi : ℤ) (h : lo ≤ hi) :
    idxRange lo hi = lo :: idxRange (lo + 1) hi := by
  unfold idxRange
  have h1 : (hi + 1 - lo).toNat = (hi - lo).toNat + 1 := by omega
  have h2 : (hi + 1 - (lo + 1)).toNat = (hi - lo).toNat := by omega
  rw [h1, h2, List.range_succ_eq_map, List.map_cons, List.map_map]
  refine congrArg₂ (· :: ·) (by simp) ?_
  refine List.map_congr_left fun j _ => ?_
  simp only [Function.comp_apply, Nat.succ_eq_add_one]
  push_cast
  ring

theorem idxRange_mem (lo hi i : ℤ) (h : i ∈ idxRange lo hi) :
    lo ≤ i ∧ i ≤ hi := by
  unfold idxRange at h
  rcases List.mem_map.mp h with ⟨j, hj, rfl⟩
  rw [List.mem_range] at hj
  omega

theorem peakScan_stable (mags : List ℝ) (l : List ℤ) (p : ℤ) (m : ℝ)
    (h : ∀ i ∈ l, ∀ v, jsGet mags i = some v → ¬ v > m) :
    peakScan mags l (p, m) = (p, m) := by
  induction l with
  | nil => rfl
  | cons i rest ih =>
      unfold peakScan
      cases hg : jsGet mags i with
      | none => exact ih fun j hj => h j (List.mem_cons_of_mem _ hj)
      | some v =>
          dsimp only
          rw [if_neg (h i (List.mem_cons_self _ _) v hg)]
          exact ih fun j hj => h j (List.mem_cons_of_mem _ hj)

theorem jsGet_replicate_zero (n : ℕ) (i : ℤ) :
    jsGet (List.replicate n (0 : ℝ)) i =
      if 0 ≤ i ∧ i.toNat < n then some 0 else none := by
  unfold jsGet
  by_cases h0 : i < 0
  · rw [if_pos h0, if_neg (by omega)]
  · rw [if_neg h0, List.get?_eq_getElem?, List.getElem?_replicate]
    by_cases h1 : i.toNat < n
    · rw [if_pos h1, if_pos ⟨by omega, h1⟩]
    · rw [if_neg h1, if_neg (by omega)]

theorem findPeak_flat :
    findPeak (List.replicate 300 (0 : ℝ)) 600 = (15, 0) := by
  have hmin : minIndexOf 600 = 15 := by
    have h : MIN_BPM / 60 * ((600 : ℕ) : ℝ) / (FPS : ℝ) = ((15 : ℤ) : ℝ) := by
      norm_num [MIN_BPM, FPS]
    unfold minIndexOf
    rw [h, Int.floor_intCast]
  have hmax : maxIndexOf 600 = 67 := by
    unfold maxIndexOf
    rw [Int.ceil_eq_iff]
    norm_num [MAX_BPM, FPS]
  unfold findPeak
  rw [hmin, hmax, idxRange_cons 15 67 (by norm_num)]
  unfold peakScan
  rw [jsGet_replicate_zero]
  rw [if_pos (by omega)]
  dsimp only
  rw [if_pos (by norm_num)]
  exact peakScan_stable _ _ _ _ fun i hi v hv => by
    rw [jsGet_replicate_zero] at hv
    by_cases h : 0 ≤ i ∧ i.toNat < 300
    · rw [if_pos h] at hv
      injection hv with hv'
      rw [← hv']
      norm_num
    · rw [if_neg h] at hv
      exact absurd hv (by simp)

theorem BUFFER_SIZE_eq : BUFFER_SIZE = 600 := rfl

theorem foldl_min_replicate (m : ℕ) (c : ℝ) :
    (List.replicate m c).foldl min c = c := by
  induction m with
  | zero => rfl
  | succ k ih => rw [List.replicate_succ, List.foldl_cons, min_self]; exact ih

theorem foldl_max_replicate (m : ℕ) (c : ℝ) :
    (List.replicate m c).foldl max c = c := by
  induction m with
  | zero => rfl
  | succ k ih => rw [List.replicate_succ, List.foldl_cons, max_self]; exact ih

theorem signalMinOf_replicate (m : ℕ) (c : ℝ) :
    signalMinOf (List.replicate (m + 1) c) = c := by
  rw [List.replicate_succ]
  show (List.replicate m c).foldl min c = c
  exact foldl_min_replicate m c

theorem signalMaxOf_replicate (m : ℕ) (c : ℝ) :
    signalMaxOf (List.replicate (m + 1) c) = c := by
  rw [List.replicate_succ]
  show (List.replicate m c).foldl max c = c
  exact foldl_max_replicate m c

/-! ### Unfolding lemmas for the frame pass -/

theorem processFrame_accepted (avg std : ℝ) (s : AppState)
    (hstd : ¬ std > COVERAGE_STD_DEV_THRESHOLD)
    (hmot : ∀ p, s.lastRedAverage = some p → ¬ |avg - p| > MOTION_THRESHOLD) :
    processFrame avg std s = acceptFrame avg s := by
  unfold processFrame
  rw [if_neg hstd]
  cases hl : s.lastRedAverage with
  | none => rfl
  | some p =>
      dsimp only
      rw [if_neg (hmot p hl)]

theorem acceptBuffer_no_evict (buf : List ℝ) (avg : ℝ)
    (h : buf.length + 1 ≤ BUFFER_SIZE) :
    acceptBuffer buf avg = buf ++ [avg] := by
  unfold acceptBuffer
  rw [if_neg (by simp; omega)]

theorem acceptBuffer_evict (buf : List ℝ) (avg : ℝ)
    (h : BUFFER_SIZE ≤ buf.length) :
    acceptBuffer buf avg = (buf ++ [avg]).tail := by
  unfold acceptBuffer
  rw [if_pos (by simp; omega)]

theorem acceptFrame_calibrating (avg : ℝ) (s : AppState)
    (h : (acceptBuffer s.dataBuffer avg).length < BUFFER_SIZE) :
    acceptFrame avg s =
      { s with
          lastRedAverage := some avg
          dataBuffer := acceptBuffer s.dataBuffer avg
          status := .calibrating
            (round (((acceptBuffer s.dataBuffer avg).length : ℝ) /
              (BUFFER_SIZE : ℝ) * 100)) } := by
  unfold acceptFrame
  rw [if_pos h]

theorem acceptFrame_full (avg : ℝ) (s : AppState)
    (h : ¬ (acceptBuffer s.dataBuffer avg).length < BUFFER_SIZE) :
    acceptFrame avg s =
      processFullWindow
        { s with
            lastRedAverage := some avg
            dataBuffer := acceptBuffer s.dataBuffer avg }
        (acceptBuffer s.dataBuffer avg) := by
  unfold acceptFrame
  rw [if_neg h]

theorem processFullWindow_flat (s : AppState) (hyd : s.yDomain = .auto)
    (hr : s.heartRate = 0) :
    processFullWindow s (List.replicate 600 (100 : ℝ)) =
      { s with
          status := .processing
          heartRate := 9 / 2
          chartData := (List.replicate 600 (0 : ℝ)).enum
          yDomain := .bounded (-1) 1 } := by
  unfold processFullWindow
  dsimp only
  rw [detrendSignal_replicate 600 100 (by omega),
    lowPassFilter_replicate]
  rw [show calculateMagnitudes (List.replicate 600 (0 : ℝ)) =
        List.replicate 300 0 by
      rw [calculateMagnitudes_replicate_zero 600]]
  simp only [List.length_replicate]
  rw [findPeak_flat, hyd, hr]
  rw [show List.replicate 600 (0 : ℝ) = List.replicate (599 + 1) 0 from rfl,
    signalMinOf_replicate, signalMaxOf_replicate]
  have hpad : paddingOf 0 0 = 1 := by
    unfold paddingOf
    rw [if_pos (by norm_num)]
  rw [hpad]
  simp only [AppState.mk.injEq, YDomain.bounded.injEq]
  norm_num [FPS]

theorem flatState_lastRedAverage (k : ℕ) (p : ℝ)
    (hp : (flatState k).lastRedAverage = some p) : p = 100 := by
  cases k with
  | zero => simp [flatState, initialState] at hp
  | succ m =>
      simp only [flatState] at hp
      exact (Option.some_inj.mp hp).symm

theorem flatState_dataBuffer (k : ℕ) :
    (flatState k).dataBuffer = List.replicate k 100 := by
  cases k <;> simp [flatState, initialState]

theorem flatState_isMonitoring (k : ℕ) : (flatState k).isMonitoring = false := by
  cases k <;> rfl

theorem flatState_yDomain (k : ℕ) : (flatState k).yDomain = .auto := by
  cases k <;> rfl

theorem flatState_heartRate (k : ℕ) : (flatState k).heartRate = 0 := by
  cases k <;> rfl

theorem flatState_chartData (k : ℕ) : (flatState k).chartData = [] := by
  cases k <;> rfl

theorem flatStep_eq (k : ℕ) :
    flatStep (flatState k) =
      acceptFrame 100 (flatState k) := by
  apply processFrame_accepted
  · norm_num [COVERAGE_STD_DEV_THRESHOLD]
  · intro p hp
    rw [flatState_lastRedAverage k p hp]
    norm_num [MOTION_THRESHOLD]

theorem runFlat_eq (n : ℕ) (h : n ≤ 599) : runFlat n = flatState n := by
  induction n with
  | zero => rfl
  | succ k ih =>
      have hk : k ≤ 599 := Nat.le_of_succ_le h
      have hrun : runFlat (k + 1) = flatStep (runFlat k) :=
        Function.iterate_succ_apply' flatStep k initialState
      rw [hrun, ih hk, flatStep_eq k]
      have haccept :
          acceptBuffer (flatState k).dataBuffer 100 = List.replicate (k + 1) 100 := by
        rw [flatState_dataBuffer, acceptBuffer_no_evict _ _
          (by rw [List.length_replicate, BUFFER_SIZE_eq]; omega),
          ← List.replicate_succ']
      rw [acceptFrame_calibrating _ _
        (by rw [haccept, List.length_replicate, BUFFER_SIZE_eq]; omega), haccept]
      cases k with
      | zero => simp [flatState, initialState]
      | succ m => simp [flatState]

theorem runFlat_600 :
    runFlat 600 =
      { initialState with
          status := .processing
          heartRate := 9 / 2
          chartData := (List.replicate 600 (0 : ℝ)).enum
          yDomain := .bounded (-1) 1
          dataBuffer := List.replicate 600 100
          lastRedAverage := some 100 } := by
  have hrun : runFlat (599 + 1) = flatStep (runFlat 599) :=
    Function.iterate_succ_apply' flatStep 599 initialState
  have h599 : runFlat 599 = flatState 599 := runFlat_eq 599 le_rfl
  rw [show (600 : ℕ) = 599 + 1 by norm_num, hrun, h599,
    flatStep_eq 599]
  have haccept :
      acceptBuffer (flatState 599).dataBuffer 100 = List.replicate 600 100 := by
    rw [flatState_dataBuffer, acceptBuffer_no_evict _ _
      (by rw [List.length_replicate, BUFFER_SIZE_eq]),
      ← List.replicate_succ']
  rw [acceptFrame_full _ _
    (by rw [haccept, List.length_replicate, BUFFER_SIZE_eq]; omega), haccept]
  have heq :=
    processFullWindow_flat
      { flatState 599 with
          lastRedAverage := some 100
          dataBuffer := List.replicate 600 100 }
      (flatState_yDomain 599) (flatState_heartRate 599)
  rw [heq]
  rfl

/-! ### The calibration invariant is preserved by every event -/

theorem acceptBuffer_length_lt (buf : List ℝ) (avg : ℝ)
    (h : (acceptBuffer buf avg).length < BUFFER_SIZE) :
    buf.length < BUFFER_SIZE ∧ acceptBuffer buf avg = buf ++ [avg] := by
  unfold acceptBuffer at h ⊢
  by_cases he : BUFFER_SIZE < (buf ++ [avg]).length
  · rw [if_pos he] at h
    rw [List.length_tail, List.length_append] at h
    rw [List.length_append] at he
    simp at h he
    omega
  · rw [if_neg he] at h ⊢
    rw [List.length_append] at h he
    simp at h he
    exact ⟨by omega, rfl⟩

theorem stateInv_acceptFrame (avg : ℝ) (s : AppState) (h : StateInv s) :
    StateInv (acceptFrame avg s) := by
  unfold acceptFrame
  by_cases hb : (acceptBuffer s.dataBuffer avg).length < BUFFER_SIZE
  · rw [if_pos hb]
    intro _
    exact h (acceptBuffer_length_lt s.dataBuffer avg hb).1
  · rw [if_neg hb]
    unfold processFullWindow
    intro hlen
    exact absurd hlen hb

theorem stateInv_processFrame (avg std : ℝ) (s : AppState) (h : StateInv s) :
    StateInv (processFrame avg std s) := by
  unfold processFrame
  by_cases hc : std > COVERAGE_STD_DEV_THRESHOLD
  · rw [if_pos hc]
    by_cases hb : 0 < s.dataBuffer.length
    · rw [if_pos hb]
      intro _
      exact ⟨rfl, rfl, rfl⟩
    · rw [if_neg hb]
      intro hlen
      exact h hlen
  · rw [if_neg hc]
    cases hl : s.lastRedAverage with
    | none => exact stateInv_acceptFrame avg s h
    | some p =>
        dsimp only
        by_cases hm : |avg - p| > MOTION_THRESHOLD
        · rw [if_pos hm]
          intro _
          exact ⟨rfl, rfl, rfl⟩
        · rw [if_neg hm]
          exact stateInv_acceptFrame avg s h

theorem stateInv_step (e : Event) (s : AppState) (h : StateInv s) :
    StateInv (step e s) := by
  cases e with
  | frame avg std => exact stateInv_processFrame avg std s h
  | start =>
      show StateInv (startMonitoring s)
      unfold startMonitoring
      by_cases hm : s.isMonitoring
      · rw [if_pos hm]
        exact h
      · rw [if_neg hm]
        intro hlen
        exact h hlen
  | stop =>
      show StateInv (stopMonitoring s)
      unfold stopMonitoring
      by_cases hm : s.isMonitoring
      · rw [if_pos hm]
        intro _
        exact ⟨rfl, rfl, rfl⟩
      · rw [if_neg hm]
        exact h

theorem reachable_stateInv (s : AppState) (h : Reachable s) : StateInv s := by
  induction h with
  | init => intro _; exact ⟨rfl, rfl, rfl⟩
  | next e s' _ ih => exact stateInv_step e s' ih

/-! ### More unfolding helpers -/

theorem acceptFrame_dataBuffer (avg : ℝ) (s : AppState) :
    (acceptFrame avg s).dataBuffer = acceptBuffer s.dataBuffer avg := by
  unfold acceptFrame
  by_cases hb : (acceptBuffer s.dataBuffer avg).length < BUFFER_SIZE
  · rw [if_pos hb]
  · rw [if_neg hb]
    rfl

theorem acceptFrame_status_ne (avg : ℝ) (s : AppState) :
    (acceptFrame avg s).status ≠ Status.needsCoverage := by
  unfold acceptFrame
  by_cases hb : (acceptBuffer s.dataBuffer avg).length < BUFFER_SIZE
  · rw [if_pos hb]
    simp
  · rw [if_neg hb]
    simp [processFullWindow]

theorem hanningWindowed_getD (signal : List ℝ) (n : ℕ) (hn : n < signal.length) :
    (hanningWindowed signal).getD n 0 =
      signal.getD n 0 *
        (0.5 * (1 - Real.cos (2 * Real.pi * n / ((signal.length : ℝ) - 1)))) := by
  have hn' : n < (hanningWindowed signal).length := by
    rw [hanningWindowed_length]; exact hn
  rw [List.getD_eq_getElem _ _ hn', List.getD_eq_getElem _ _ hn]
  unfold hanningWindowed
  simp [List.getElem_enum]

/-! ### Claims -/

/-- C5: the Detrender is the identity on signals of length < 3; for length
N ≥ 3 it preserves the length and subtracts, at every index, the arithmetic
mean of the input over the clipped sub-window
`[max(0, i-⌊fps/2⌋), min(N-1, i+⌊fps/2⌋)]` with fps = 30. -/
theorem detrender_spec (signal : List ℝ) :
    (signal.length < 3 → detrendSignal signal = signal) ∧
    (3 ≤ signal.length →
      (detrendSignal signal).length = signal.length ∧
      ∀ i, i < signal.length →
        (detrendSignal signal).getD i 0 =
          signal.getD i 0 - specLocalMean signal i) := by
  constructor
  · intro h
    unfold detrendSignal
    rw [if_pos h]
  · intro h3
    unfold detrendSignal
    rw [if_neg (by omega)]
    have hlen :
        (List.zipWith (fun val avg => val - avg) signal
            ((List.range signal.length).map (movingAverageAt signal))).length =
          signal.length := by
      rw [List.length_zipWith, List.length_map, List.length_range, min_self]
    refine ⟨hlen, fun i hi => ?_⟩
    have hz : i < (List.zipWith (fun val avg => val - avg) signal
        ((List.range signal.length).map (movingAverageAt signal))).length := by
      rw [hlen]; exact hi
    rw [List.getD_eq_getElem _ _ hz, List.getElem_zipWith, List.getElem_map,
      List.getElem_range, List.getD_eq_getElem _ _ hi,
      movingAverageAt_eq_specLocalMean signal i hi]

/-- Witness for C5 at concrete inputs: a 1-element signal passes through
unchanged, and index 0 of a 3-element signal has its local mean removed. -/
theorem detrender_spec_witness :
    ([(5 : ℝ)].length < 3 ∧ detrendSignal [(5 : ℝ)] = [5]) ∧
    (3 ≤ [(1 : ℝ), 2, 3].length ∧
      (detrendSignal [(1 : ℝ), 2, 3]).getD 0 0 =
        ([(1 : ℝ), 2, 3]).getD 0 0 - specLocalMean [(1 : ℝ), 2, 3] 0) := by
  refine ⟨⟨by norm_num, (detrender_spec [5]).1 (by norm_num)⟩,
    ⟨by norm_num, ((detrender_spec [1, 2, 3]).2 (by norm_num)).2 0 (by norm_num)⟩⟩

/-- C6: the Smoothing Filter returns an empty output exactly for empty
input, and maps every non-empty constant sequence to itself. -/
theorem lowpass_empty_and_constant (signal : List ℝ) (alpha : ℝ) :
    (lowPassFilter signal alpha = [] ↔ signal = []) ∧
    (∀ (n : ℕ) (c : ℝ), signal = List.replicate n c → signal ≠ [] →
      lowPassFilter signal alpha = signal) := by
  constructor
  · constructor
    · intro h
      cases signal with
      | nil => rfl
      | cons x xs => exact absurd h (by simp [lowPassFilter])
    · intro h
      rw [h]
      rfl
  · intro n c hrep _
    rw [hrep, lowPassFilter_replicate]

/-- Witness for C6: the constant sequence `[3, 3]` is a fixed point of the
low-pass filter, and a singleton input yields a non-empty output. -/
theorem lowpass_empty_and_constant_witness :
    ([(3 : ℝ), 3] = List.replicate 2 (3 : ℝ) ∧
      lowPassFilter [(3 : ℝ), 3] 0.5 = [3, 3]) ∧
    ¬ lowPassFilter [(7 : ℝ)] 0.5 = [] := by
  refine ⟨⟨by simp [List.replicate], ?_⟩, ?_⟩
  · exact (lowpass_empty_and_constant [3, 3] 0.5).2 2 3 (by simp [List.replicate])
      (by simp)
  · intro h
    exact absurd ((lowpass_empty_and_constant [7] 0.5).1.mp h) (by simp)

/-- C4 counterexample: for the odd-length signal `[0, 0, 0]` (N = 3) the
source's loop `for (k = 0; k < N / 2; k++)` executes for k = 0 and k = 1,
extending the array past its `⌊N/2⌋ = 1` allocated slots, so the spectrum
has 2 values, not `⌊3/2⌋ = 1` as claimed. -/
theorem spectrum_floor_counterexample :
    (calculateMagnitudes [(0 : ℝ), 0, 0]).length = 2 ∧
    (calculateMagnitudes [(0 : ℝ), 0, 0]).length ≠ 3 / 2 := by
  have h : (calculateMagnitudes [(0 : ℝ), 0, 0]).length = 2 := by
    unfold calculateMagnitudes
    simp
  exact ⟨h, by rw [h]; norm_num⟩

/-- C4 (amended): `calculateMagnitudes` returns exactly `⌈N/2⌉ = (N+1)/2`
values — which equals the claimed `⌊N/2⌋` whenever N is even — and bin `k`
holds `sqrt(real² + imag²)/N` with `real = Σ x'[n]·cos(2πkn/N)`,
`imag = -Σ x'[n]·sin(2πkn/N)` over the Hanning-windowed input `x'`. -/
theorem spectrum_amended (signal : List ℝ) :
    (calculateMagnitudes signal).length = (signal.length + 1) / 2 ∧
    (signal.length % 2 = 0 →
      (calculateMagnitudes signal).length = signal.length / 2) ∧
    (∀ k, k < (signal.length + 1) / 2 →
      (calculateMagnitudes signal).getD k 0 = specMagnitudeAt signal k) := by
  have hlen : (calculateMagnitudes signal).length = (signal.length + 1) / 2 := by
    unfold calculateMagnitudes
    simp
  refine ⟨hlen, fun he => by rw [hlen]; omega, fun k hk => ?_⟩
  have hk' : k < (calculateMagnitudes signal).length := by rw [hlen]; exact hk
  rw [List.getD_eq_getElem _ _ hk']
  unfold calculateMagnitudes
  simp only [List.getElem_map, List.getElem_range]
  unfold specMagnitudeAt
  dsimp only
  have hre :
      dftReal (hanningWindowed signal) signal.length k =
        ∑ n ∈ Finset.range signal.length,
          signal.getD n 0 *
              (0.5 * (1 - Real.cos (2 * Real.pi * n / ((signal.length : ℝ) - 1)))) *
            Real.cos (2 * Real.pi * k * n / (signal.length : ℝ)) := by
    unfold dftReal
    rw [hanningWindowed_length]
    exact Finset.sum_congr rfl fun n hn =>
      congrArg₂ (· * ·)
        (hanningWindowed_getD signal n (Finset.mem_range.mp hn)) rfl
  have him :
      dftImag (hanningWindowed signal) signal.length k =
        -∑ n ∈ Finset.range signal.length,
          signal.getD n 0 *
              (0.5 * (1 - Real.cos (2 * Real.pi * n / ((signal.length : ℝ) - 1)))) *
            Real.sin (2 * Real.pi * k * n / (signal.length : ℝ)) := by
    unfold dftImag
    rw [hanningWindowed_length, ← Finset.sum_neg_distrib]
    exact Finset.sum_congr rfl fun n hn => by
      rw [hanningWindowed_getD signal n (Finset.mem_range.mp hn)]
  rw [hre, him]
  ring_nf

/-- Witness for C4 (amended) at concrete inputs: the 3-sample spectrum has
bin 1 given by the DFT formula, and an even-length signal has exactly
`N/2` bins. -/
theorem spectrum_amended_witness :
    (1 < ([(0 : ℝ), 0, 0].length + 1) / 2 ∧
      (calculateMagnitudes [(0 : ℝ), 0, 0]).getD 1 0 =
        specMagnitudeAt [(0 : ℝ), 0, 0] 1) ∧
    ([(0 : ℝ), 0].length % 2 = 0 ∧
      (calculateMagnitudes [(0 : ℝ), 0]).length = [(0 : ℝ), 0].length / 2) := by
  refine ⟨⟨by norm_num, (spectrum_amended [(0 : ℝ), 0, 0]).2.2 1 (by norm_num)⟩,
    ⟨by norm_num, (spectrum_amended [(0 : ℝ), 0]).2.1 (by norm_num)⟩⟩

/-- C2: on any reachable state, a frame with `redStdDev` strictly above the
coverage threshold emits the needs-coverage status, clears the window,
resets the rate to 0 and the range to auto, appends no sample and leaves
the previous-average memory untouched; a frame at or below the threshold
never triggers the coverage rejection. -/
theorem coverage_check (s : AppState) (redAverage redStdDev : ℝ)
    (hreach : Reachable s) :
    (redStdDev > COVERAGE_STD_DEV_THRESHOLD →
      (processFrame redAverage redStdDev s).status = .needsCoverage ∧
      (processFrame redAverage redStdDev s).dataBuffer = [] ∧
      (processFrame redAverage redStdDev s).heartRate = 0 ∧
      (processFrame redAverage redStdDev s).yDomain = .auto ∧
      (processFrame redAverage redStdDev s).lastRedAverage = s.lastRedAverage) ∧
    (redStdDev ≤ COVERAGE_STD_DEV_THRESHOLD →
      (processFrame redAverage redStdDev s).status ≠ .needsCoverage) := by
  constructor
  · intro hc
    unfold processFrame
    rw [if_pos hc]
    by_cases hb : 0 < s.dataBuffer.length
    · rw [if_pos hb]
      exact ⟨rfl, rfl, rfl, rfl, rfl⟩
    · rw [if_neg hb]
      have hnil : s.dataBuffer = [] := by
        cases hd : s.dataBuffer with
        | nil => rfl
        | cons x xs => rw [hd] at hb; simp at hb
      have hinv := reachable_stateInv s hreach
        (by rw [hnil]; simp [BUFFER_SIZE_eq])
      exact ⟨rfl, hnil, hinv.1, hinv.2.2, rfl⟩
  · intro hc
    unfold processFrame
    rw [if_neg (not_lt.mpr hc)]
    cases hl : s.lastRedAverage with
    | none => exact acceptFrame_status_ne redAverage s
    | some p =>
        dsimp only
        by_cases hm : |redAverage - p| > MOTION_THRESHOLD
        · rw [if_pos hm]
          simp
        · rw [if_neg hm]
          exact acceptFrame_status_ne redAverage s

/-- Witness for C2: from the (reachable) initial state, a frame with
standard deviation 20 triggers the coverage rejection and leaves the
previous-average memory unchanged, while one with standard deviation 2
does not trigger it. -/
theorem coverage_check_witness :
    ((20 : ℝ) > COVERAGE_STD_DEV_THRESHOLD ∧
      (processFrame 100 20 initialState).status = .needsCoverage ∧
      (processFrame 100 20 initialState).lastRedAverage = none) ∧
    ((2 : ℝ) ≤ COVERAGE_STD_DEV_THRESHOLD ∧
      (processFrame 100 2 initialState).status ≠ .needsCoverage) := by
  constructor
  · have h := (coverage_check initialState 100 20 Reachable.init).1
      (by norm_num [COVERAGE_STD_DEV_THRESHOLD])
    exact ⟨by norm_num [COVERAGE_STD_DEV_THRESHOLD], h.1, h.2.2.2.2.trans rfl⟩
  · exact ⟨by norm_num [COVERAGE_STD_DEV_THRESHOLD],
      (coverage_check initialState 100 2 Reachable.init).2
        (by norm_num [COVERAGE_STD_DEV_THRESHOLD])⟩

/-- C3 counterexample: the claim omits that the coverage check runs first.
After one accepted frame (previous average 100), a frame with
`redAverage = 200` (jump 100 > motionThreshold) but `redStdDev = 20` above
the coverage threshold leaves the previous-average memory at 100 — it is
not updated to 200 as the claim requires for every frame with a
qualifying jump. -/
theorem motion_memory_counterexample :
    (processFrame 100 2 initialState).lastRedAverage = some 100 ∧
    |(200 : ℝ) - 100| > MOTION_THRESHOLD ∧
    (processFrame 200 20 (processFrame 100 2 initialState)).lastRedAverage =
      some 100 ∧
    (processFrame 200 20 (processFrame 100 2 initialState)).lastRedAverage ≠
      some 200 := by
  have h1 : processFrame 100 2 initialState = flatState 1 := by
    have := runFlat_eq 1 (by omega)
    rwa [runFlat, Function.iterate_one] at this
  have h2 : (processFrame 200 20 (processFrame 100 2 initialState)).lastRedAverage
      = some 100 := by
    rw [h1]
    unfold processFrame
    rw [if_pos (by norm_num [COVERAGE_STD_DEV_THRESHOLD])]
    rw [if_pos (by simp [flatState])]
    show (flatState 1).lastRedAverage = some 100
    rfl
  refine ⟨by rw [h1]; rfl, by norm_num [MOTION_THRESHOLD], h2, ?_⟩
  rw [h2]
  simp

/-- C3 (amended): provided the frame passes the coverage check
(`redStdDev ≤ threshold`), a frame with a previous accepted average and
`|redAverage - previous| > motionThreshold` clears the window, resets the
rate to 0 and the range to auto, appends no sample, and updates the
previous-average memory to the current `redAverage`. -/
theorem motion_check_amended (s : AppState) (redAverage redStdDev p : ℝ)
    (hstd : ¬ redStdDev > COVERAGE_STD_DEV_THRESHOLD)
    (hprev : s.lastRedAverage = some p)
    (hjump : |redAverage - p| > MOTION_THRESHOLD) :
    (processFrame redAverage redStdDev s).status = .motionDetected ∧
    (processFrame redAverage redStdDev s).dataBuffer = [] ∧
    (processFrame redAverage redStdDev s).heartRate = 0 ∧
    (processFrame redAverage redStdDev s).yDomain = .auto ∧
    (processFrame redAverage redStdDev s).lastRedAverage = some redAverage := by
  unfold processFrame
  rw [if_neg hstd, hprev]
  dsimp only
  rw [if_pos hjump]
  exact ⟨rfl, rfl, rfl, rfl, rfl⟩

/-- Witness for C3 (amended): after one accepted frame at average 100, a
clean frame (std 2) jumping to average 200 trips the motion branch and
moves the previous-average memory to 200. -/
theorem motion_check_amended_witness :
    (¬ (2 : ℝ) > COVERAGE_STD_DEV_THRESHOLD ∧
      (processFrame 100 2 initialState).lastRedAverage = some 100 ∧
      |(200 : ℝ) - 100| > MOTION_THRESHOLD) ∧
    (processFrame 200 2 (processFrame 100 2 initialState)).lastRedAverage =
      some 200 := by
  have h1 : (processFrame 100 2 initialState).lastRedAverage = some 100 := by
    have h := runFlat_eq 1 (by omega)
    rw [runFlat, Function.iterate_one] at h
    show (flatStep initialState).lastRedAverage = some 100
    rw [h]
    rfl
  refine ⟨⟨by norm_num [COVERAGE_STD_DEV_THRESHOLD], h1,
    by norm_num [MOTION_THRESHOLD]⟩, ?_⟩
  exact (motion_check_amended (processFrame 100 2 initialState) 200 2 100
    (by norm_num [COVERAGE_STD_DEV_THRESHOLD]) h1
    (by norm_num [MOTION_THRESHOLD])).2.2.2.2

/-- C7: on an accepted full-window cycle, the new smoothed rate is
`0.9·r + 0.1·b` (with `b` the BPM of the winning bin) when the peak scan
found a bin, and exactly the previous rate when it found none. -/
theorem rate_smoother (s : AppState) (redAverage redStdDev : ℝ)
    (hstd : ¬ redStdDev > COVERAGE_STD_DEV_THRESHOLD)
    (hmot : ∀ p, s.lastRedAverage = some p → ¬ |redAverage - p| > MOTION_THRESHOLD)
    (hfull : ¬ (acceptBuffer s.dataBuffer redAverage).length < BUFFER_SIZE) :
    (processFrame redAverage redStdDev s).heartRate =
      (let filtered :=
        lowPassFilter (detrendSignal (acceptBuffer s.dataBuffer redAverage))
          LOW_PASS_ALPHA
       let peak := findPeak (calculateMagnitudes filtered) filtered.length
       if peak.1 ≠ -1 then
         s.heartRate * 0.9 +
           (peak.1 : ℝ) * (FPS : ℝ) / (filtered.length : ℝ) * 60 * 0.1
       else s.heartRate) := by
  rw [processFrame_accepted _ _ _ hstd hmot, acceptFrame_full _ _ hfull]
  unfold processFullWindow
  dsimp only

/-- Witness for C7: in the calibrated flat steady state a peak is found
(the zero-magnitude lowest band bin) and the rate moves from 0 to
`0.9·0 + 0.1·45 = 4.5`. -/
theorem rate_smoother_witness :
    (¬ (2 : ℝ) > COVERAGE_STD_DEV_THRESHOLD ∧
      ¬ (acceptBuffer flatFull.dataBuffer 100).length < BUFFER_SIZE) ∧
    (processFrame 100 2 flatFull).heartRate = 9 / 2 := by
  have hmot : ∀ p, flatFull.lastRedAverage = some p →
      ¬ |(100 : ℝ) - p| > MOTION_THRESHOLD := by
    intro p hp
    have : p = 100 := by
      simpa [flatFull, initialState] using hp.symm
    rw [this]
    norm_num [MOTION_THRESHOLD]
  have haccept : acceptBuffer flatFull.dataBuffer 100 = List.replicate 600 100 := by
    show acceptBuffer (List.replicate BUFFER_SIZE 100) 100 = _
    rw [acceptBuffer_evict _ _ (by simp), BUFFER_SIZE_eq, ← List.replicate_succ']
    rfl
  have hfull : ¬ (acceptBuffer flatFull.dataBuffer 100).length < BUFFER_SIZE := by
    rw [haccept, List.length_replicate, BUFFER_SIZE_eq]
    omega
  refine ⟨⟨by norm_num [COVERAGE_STD_DEV_THRESHOLD], hfull⟩, ?_⟩
  have h := rate_smoother flatFull 100 2
    (by norm_num [COVERAGE_STD_DEV_THRESHOLD]) hmot hfull
  rw [h]
  dsimp only
  rw [haccept, detrendSignal_replicate 600 100 (by omega), lowPassFilter_replicate]
  rw [show calculateMagnitudes (List.replicate 600 (0 : ℝ)) =
        List.replicate 300 0 by
      rw [calculateMagnitudes_replicate_zero 600]]
  simp only [List.length_replicate]
  rw [findPeak_flat]
  rw [if_pos (by norm_num)]
  show (0 : ℝ) * 0.9 + ((15 : ℤ) : ℝ) * (FPS : ℝ) / ((600 : ℕ) : ℝ) * 60 * 0.1 = 9 / 2
  norm_num [FPS]

/-- C9: on an accepted full-window cycle the display range is computed from
the min and max of the processed signal with a pad of 10% of the span (or
the fixed default 1 for a flat signal), adopted outright from the auto
sentinel and otherwise smoothed per bound as `0.98·old + 0.02·new`. -/
theorem display_scaler (s : AppState) (redAverage redStdDev : ℝ)
    (hstd : ¬ redStdDev > COVERAGE_STD_DEV_THRESHOLD)
    (hmot : ∀ p, s.lastRedAverage = some p → ¬ |redAverage - p| > MOTION_THRESHOLD)
    (hfull : ¬ (acceptBuffer s.dataBuffer redAverage).length < BUFFER_SIZE) :
    (∀ a b : ℝ, paddingOf a b = if b - a = 0 then 1 else (b - a) * 0.1) ∧
    (processFrame redAverage redStdDev s).yDomain =
      (let filtered :=
        lowPassFilter (detrendSignal (acceptBuffer s.dataBuffer redAverage))
          LOW_PASS_ALPHA
       let m := signalMinOf filtered
       let M := signalMaxOf filtered
       let pad := paddingOf m M
       match s.yDomain with
       | .auto => YDomain.bounded (m - pad) (M + pad)
       | .bounded lo hi =>
           YDomain.bounded (lo * 0.98 + (m - pad) * 0.02)
             (hi * 0.98 + (M + pad) * 0.02)) := by
  constructor
  · intro a b
    unfold paddingOf
    by_cases h : b - a = 0
    · rw [if_pos (by rw [h]; ring), if_pos h]
    · rw [if_neg (by intro hc; exact h (by linarith [mul_eq_zero.mp hc,
        (by norm_num : (0.1 : ℝ) ≠ 0)])), if_neg h]
  · rw [processFrame_accepted _ _ _ hstd hmot, acceptFrame_full _ _ hfull]
    unfold processFullWindow
    dsimp only

/-- Witness for C9: in the calibrated flat steady state the processed
signal is identically zero, the pad falls back to the default 1, and the
auto sentinel is replaced outright by `(-1, 1)`. -/
theorem display_scaler_witness :
    (¬ (2 : ℝ) > COVERAGE_STD_DEV_THRESHOLD ∧
      ¬ (acceptBuffer flatFull.dataBuffer 100).length < BUFFER_SIZE) ∧
    paddingOf 0 0 = 1 ∧
    (processFrame 100 2 flatFull).yDomain = YDomain.bounded (-1) 1 := by
  have hmot : ∀ p, flatFull.lastRedAverage = some p →
      ¬ |(100 : ℝ) - p| > MOTION_THRESHOLD := by
    intro p hp
    have : p = 100 := by
      simpa [flatFull, initialState] using hp.symm
    rw [this]
    norm_num [MOTION_THRESHOLD]
  have haccept : acceptBuffer flatFull.dataBuffer 100 = List.replicate 600 100 := by
    show acceptBuffer (List.replicate BUFFER_SIZE 100) 100 = _
    rw [acceptBuffer_evict _ _ (by simp), BUFFER_SIZE_eq, ← List.replicate_succ']
    rfl
  have hfull : ¬ (acceptBuffer flatFull.dataBuffer 100).length < BUFFER_SIZE := by
    rw [haccept, List.length_replicate, BUFFER_SIZE_eq]
    omega
  have h := display_scaler flatFull 100 2
    (by norm_num [COVERAGE_STD_DEV_THRESHOLD]) hmot hfull
  refine ⟨⟨by norm_num [COVERAGE_STD_DEV_THRESHOLD], hfull⟩,
    by rw [h.1 0 0]; norm_num, ?_⟩
  rw [h.2]
  dsimp only
  rw [haccept, detrendSignal_replicate 600 100 (by omega), lowPassFilter_replicate]
  rw [show List.replicate 600 (0 : ℝ) = List.replicate (599 + 1) 0 from rfl,
    signalMinOf_replicate, signalMaxOf_replicate]
  rw [show flatFull.yDomain = YDomain.auto from rfl]
  rw [show paddingOf 0 0 = 1 by rw [h.1 0 0]; norm_num]
  norm_num

/-- C10: in every reachable state whose sample window is not yet full, the
heart-rate estimate is 0, the chart data is empty, and the display range is
still the auto sentinel. -/
theorem calibration_invariant (s : AppState) (h : Reachable s)
    (hlen : s.dataBuffer.length < BUFFER_SIZE) :
    s.heartRate = 0 ∧ s.chartData = [] ∧ s.yDomain = .auto :=
  reachable_stateInv s h hlen

/-- Witness for C10 at the initial state, whose window is empty. -/
theorem calibration_invariant_witness :
    initialState.dataBuffer.length < BUFFER_SIZE ∧
    initialState.heartRate = 0 ∧ initialState.chartData = [] ∧
    initialState.yDomain = .auto := by
  have hlen : initialState.dataBuffer.length < BUFFER_SIZE := by
    simp [initialState, BUFFER_SIZE_eq]
  exact ⟨hlen, calibration_invariant initialState Reachable.init hlen⟩

/-- C8: for every accepted frame the window grows by exactly one sample up
to capacity (preserving arrival order), evicts the oldest sample FIFO once
at capacity so the length stays pinned there, never exceeds capacity, and
while below capacity the pass reports the calibrating percentage and leaves
rate, chart and range untouched (no downstream processing). -/
theorem window_invariant (s : AppState) (redAverage redStdDev : ℝ)
    (hstd : ¬ redStdDev > COVERAGE_STD_DEV_THRESHOLD)
    (hmot : ∀ p, s.lastRedAverage = some p → ¬ |redAverage - p| > MOTION_THRESHOLD)
    (hcap : s.dataBuffer.length ≤ BUFFER_SIZE) :
    (s.dataBuffer.length < BUFFER_SIZE →
      (processFrame redAverage redStdDev s).dataBuffer =
        s.dataBuffer ++ [redAverage]) ∧
    (s.dataBuffer.length = BUFFER_SIZE →
      (processFrame redAverage redStdDev s).dataBuffer =
        s.dataBuffer.tail ++ [redAverage]) ∧
    (processFrame redAverage redStdDev s).dataBuffer.length =
      min (s.dataBuffer.length + 1) BUFFER_SIZE ∧
    ((processFrame redAverage redStdDev s).dataBuffer.length < BUFFER_SIZE →
      (processFrame redAverage redStdDev s).status =
        .calibrating
          (round
            (((processFrame redAverage redStdDev s).dataBuffer.length : ℝ) /
              (BUFFER_SIZE : ℝ) * 100)) ∧
      (processFrame redAverage redStdDev s).heartRate = s.heartRate ∧
      (processFrame redAverage redStdDev s).chartData = s.chartData ∧
      (processFrame redAverage redStdDev s).yDomain = s.yDomain) := by
  rw [processFrame_accepted _ _ _ hstd hmot]
  have hbuf := acceptFrame_dataBuffer redAverage s
  by_cases hlt : s.dataBuffer.length < BUFFER_SIZE
  · have hne : acceptBuffer s.dataBuffer redAverage = s.dataBuffer ++ [redAverage] :=
      acceptBuffer_no_evict _ _ (by omega)
    have hlen :
        (acceptFrame redAverage s).dataBuffer.length = s.dataBuffer.length + 1 := by
      rw [hbuf, hne, List.length_append]
      rfl
    refine ⟨fun _ => by rw [hbuf, hne], fun heq => absurd heq (by omega),
      by rw [hlen]; omega, fun h4 => ?_⟩
    have hlt2 : (acceptBuffer s.dataBuffer redAverage).length < BUFFER_SIZE := by
      rw [← hbuf]
      omega
    rw [acceptFrame_calibrating _ _ hlt2]
    exact ⟨rfl, rfl, rfl, rfl⟩
  · have heqC : s.dataBuffer.length = BUFFER_SIZE := by omega
    have hev : acceptBuffer s.dataBuffer redAverage =
        (s.dataBuffer ++ [redAverage]).tail :=
      acceptBuffer_evict _ _ (by omega)
    have hlen : (acceptFrame redAverage s).dataBuffer.length = BUFFER_SIZE := by
      rw [hbuf, hev, List.length_tail, List.length_append]
      simp
      omega
    refine ⟨fun hc => absurd hc (by omega), fun _ => ?_, by rw [hlen]; omega,
      fun h4 => absurd h4 (by omega)⟩
    rw [hbuf, hev]
    cases hd : s.dataBuffer with
    | nil =>
        rw [hd] at heqC
        simp [BUFFER_SIZE_eq] at heqC
    | cons x xs => simp

/-- Witness for C8: the first accepted frame grows the empty window to one
sample, reports calibration, and leaves the rate untouched. -/
theorem window_invariant_witness :
    initialState.dataBuffer.length < BUFFER_SIZE ∧
    (processFrame 100 2 initialState).dataBuffer = [(100 : ℝ)] ∧
    (processFrame 100 2 initialState).heartRate = initialState.heartRate := by
  have h := window_invariant initialState 100 2
    (by norm_num [COVERAGE_STD_DEV_THRESHOLD])
    (fun p hp => by simp [initialState] at hp)
    (by simp [initialState])
  have hlt : initialState.dataBuffer.length < BUFFER_SIZE := by
    simp [initialState, BUFFER_SIZE_eq]
  refine ⟨hlt, (h.1 hlt).trans (by simp [initialState]), ?_⟩
  have hlen : (processFrame 100 2 initialState).dataBuffer.length < BUFFER_SIZE := by
    rw [h.1 hlt]
    simp [initialState, BUFFER_SIZE_eq]
  exact (h.2.2.2 hlen).2.1

/-- C1 counterexample: after exactly `capacity = 600` flat frames
(`redAverage = 100`, `redStdDev = 2`) the smoothed heart rate is 4.5, not 0
— the all-zero spectrum still yields a peak because `maxMagnitude` starts
at -1, so the lowest searched bin (45 BPM) wins with magnitude 0 and the
smoother runs `0.9·0 + 0.1·45`. -/
theorem flat_scenario_counterexample :
    (runFlat 600).heartRate = 9 / 2 ∧ (runFlat 600).heartRate ≠ 0 := by
  have h : (runFlat 600).heartRate = 9 / 2 := by rw [runFlat_600]
  exact ⟨h, by rw [h]; norm_num⟩

/-- C1 (amended): feeding 600 flat frames gives the claimed status
transitions — Calibrating percentages through frame 599, Processing on
frame 600 — but on the 600th frame the rate becomes `0.9·0 + 0.1·45 = 4.5`
rather than staying 0, because the peak scan (initialized with
`maxMagnitude = -1`) reports the zero-magnitude lowest band bin. -/
theorem flat_scenario_amended :
    (∀ n, 1 ≤ n → n ≤ 599 →
      (runFlat n).status =
        .calibrating (round ((n : ℝ) / (BUFFER_SIZE : ℝ) * 100)) ∧
      (runFlat n).heartRate = 0) ∧
    (runFlat 600).status = .processing ∧
    (runFlat 600).heartRate = 0 * 0.9 + 45 * 0.1 := by
  refine ⟨fun n h1 h599 => ?_, by rw [runFlat_600], by rw [runFlat_600]; norm_num⟩
  rw [runFlat_eq n h599]
  cases n with
  | zero => omega
  | succ m => exact ⟨rfl, flatState_heartRate _⟩

/-- Witness for C1 (amended): halfway through calibration the rate is
still 0, and on the 600th frame the status is Processing. -/
theorem flat_scenario_amended_witness :
    ((1 : ℕ) ≤ 300 ∧ (300 : ℕ) ≤ 599 ∧ (runFlat 300).heartRate = 0) ∧
    (runFlat 600).status = .processing :=
  ⟨⟨by norm_num, by norm_num,
      (flat_scenario_amended.1 300 (by norm_num) (by norm_num)).2⟩,
    flat_scenario_amended.2.1⟩

end

end HeartRate
